import Mathlib

set_option maxRecDepth 4000

/-!
# Verification of the jobly data-access layer

Shallow embedding of the dynamic-SQL building code of the jobly repository:

* `sqlForPartialUpdate` (helpers/sql.js, re-exported next to models/company.js),
* `Company.filter` (models/company.js), and
* `Job.filter` (models/job.js),

together with proofs of the specification's claims about them.

JavaScript objects passed as ordered key/value mappings are embedded as
association lists (JS objects enumerate own string keys in insertion order,
so `Object.keys` / `Object.values` are the first/second projections).
JavaScript runtime values that can be bound as SQL parameters are embedded
as the inductive `JSVal`; `undefined` is a first-class value (`JSVal.undef`).
-/

/-- A JavaScript value that the data-access layer can place in a bind-values
array: strings, (integer) numbers, booleans, and `undefined`. -/
inductive JSVal where
  | str (s : String)
  | int (n : Int)
  | bool (b : Bool)
  | undef
deriving DecidableEq, Repr

/-- The two error classes of expressError.js that the data-access layer
throws: `BadRequestError` (the spec's `InvalidInput`/`InvalidRange` client
error) and `NotFoundError`, each carrying its message. -/
inductive DomainError where
  | badRequest (msg : String)
  | notFound (msg : String)
deriving DecidableEq, Repr

/-- JS `>` between two possibly-undefined numbers: any comparison involving
`undefined` is `false` (it coerces to `NaN`); two numbers compare normally.
Embeds expressions such as `minEmployees > maxEmployees`. -/
def jsGtOpt : Option Int → Option Int → Bool
  | some x, some y => x > y
  | _, _ => false

/-- JS `>` between a possibly-undefined number and a `JSVal`: `false`
whenever either side is not a number (NaN comparison). Embeds
`minSalary > jobsRes.rows.salary`. -/
def jsGtOptVal : Option Int → JSVal → Bool
  | some x, JSVal.int y => x > y
  | _, _ => false

/-- JS truthiness of a possibly-undefined number: `undefined` and `0` are
falsy. Embeds `if (minEmployees)`. -/
def jsTruthyInt : Option Int → Bool
  | some n => n ≠ 0
  | none => false

/-- JS truthiness of a possibly-undefined string: `undefined` and `""` are
falsy. Embeds `if (name)`. -/
def jsTruthyStr : Option String → Bool
  | some s => s ≠ ""
  | none => false

/-- Decimal rendering of a natural number, as JS template literals render
numbers (`` `$${idx + 1}` ``). Fuel-based digit peeling, most significant
digit first; the fuel `n + 1` always suffices since each step divides by 10. -/
def natToDecimalAux : Nat → Nat → List Char → List Char
  | 0, _, acc => acc
  | fuel + 1, n, acc =>
    if n < 10 then Char.ofNat (48 + n % 10) :: acc
    else natToDecimalAux fuel (n / 10) (Char.ofNat (48 + n % 10) :: acc)

/-- Decimal rendering of a natural number as a string. -/
def natToDecimal (n : Nat) : String := ⟨natToDecimalAux (n + 1) n []⟩

/-- JS `Array.prototype.join(sep)`: empty array gives `""`, otherwise the
elements separated by `sep` with no trailing separator. -/
def joinSep (sep : String) : List String → String
  | [] => ""
  | [x] => x
  | x :: y :: xs => x ++ sep ++ joinSep sep (y :: xs)

/-- JS `Array.prototype.map((x, idx) => ...)` with the running index made
explicit, so that the 1-based placeholder numbering of the source is visible
structurally. -/
def mapWithIdx (f : String → Nat → String) : List String → Nat → List String
  | [], _ => []
  | k :: ks, i => f k i :: mapWithIdx f ks (i + 1)

/-- JS property read `obj[key]` on an object embedded as an association
list: `some v` when the key is an own property, `none` (`undefined`)
otherwise. -/
def jsGet (obj : List (String × String)) (k : String) : Option String :=
  (obj.find? (fun p => p.1 = k)).map Prod.snd

/-- The column-name resolution `jsToSql[colName] || colName` of
sqlForPartialUpdate: a missing key yields `undefined` (falsy) and a present
key mapped to the falsy string `""` also falls through `||` to the key
itself. -/
def resolveCol (jsToSql : List (String × String)) (colName : String) : String :=
  match jsGet jsToSql colName with
  | some v => if v = "" then colName else v
  | none => colName

/-- One SET-clause fragment of sqlForPartialUpdate:
`` `"${jsToSql[colName] || colName}"=$${idx + 1}` ``. -/
def updateFrag (jsToSql : List (String × String)) (colName : String) (idx : Nat) : String :=
  "\"" ++ resolveCol jsToSql colName ++ "\"=$" ++ natToDecimal (idx + 1)

/-- The result `{ setCols, values }` of sqlForPartialUpdate. -/
structure PartialUpdateClause where
  setCols : String
  values : List JSVal
deriving DecidableEq, Repr

/-- helpers/sql.js `sqlForPartialUpdate(dataToUpdate, jsToSql)`:
`Object.keys` of the payload; throws `BadRequestError("No data")` when there
are none; otherwise one fragment `"<column>"=$<idx+1>` per key in enumeration
order, comma-joined, paired with `Object.values` of the payload. -/
def sqlForPartialUpdate (dataToUpdate : List (String × JSVal))
    (jsToSql : List (String × String)) : Except DomainError PartialUpdateClause :=
  let keys := dataToUpdate.map Prod.fst
  if keys.length = 0 then .error (.badRequest "No data")
  else
    let cols := mapWithIdx (fun colName idx => updateFrag jsToSql colName idx) keys 0
    .ok { setCols := joinSep ", " cols, values := dataToUpdate.map Prod.snd }

/-- Count of `$` characters in a string. The clause texts built by this layer
place a `$` exactly at each numbered placeholder (bind values never enter the
clause text), so for them this is the number of placeholders. -/
def countDollar (s : String) : Nat := s.data.count '$'

/-- Scanner state machine extracting the numbered placeholders of a clause
text in order: after a `$`, accumulates the following decimal digits into the
placeholder's index. -/
def scanPlaceholdersAux : Option Nat → List Char → List Nat
  | some n, [] => [n]
  | none, [] => []
  | some n, c :: rest =>
    if c.isDigit then scanPlaceholdersAux (some (n * 10 + (c.toNat - 48))) rest
    else n :: (if c = '$' then scanPlaceholdersAux (some 0) rest
               else scanPlaceholdersAux none rest)
  | none, c :: rest =>
    if c = '$' then scanPlaceholdersAux (some 0) rest
    else scanPlaceholdersAux none rest

/-- The indices of the numbered placeholders of a clause text, in text
order: `placeholderIndices "x=$1 AND y<$12"` is `[1, 12]`. -/
def placeholderIndices (s : String) : List Nat := scanPlaceholdersAux none s.data

/-- JS template-literal interpolation of a possibly-undefined number:
`undefined` renders as the text `undefined`. -/
def jsInterpInt : Option Int → String
  | some n => toString n
  | none => "undefined"

/-- JS template-literal interpolation of a possibly-undefined string. -/
def jsInterpStr : Option String → String
  | some s => s
  | none => "undefined"

/-- JS `parseInt` applied to an integer-valued number, as Company.filter does
to `minEmployees` / `maxEmployees` before binding them: the number is
stringified and re-parsed, which is the identity on integers (the model
restricts numeric criteria to integers). -/
def parseIntJS (n : Int) : Int := n

/-- A row of the jobs table as selected by Job.filter. -/
structure JobRow where
  id : Int
  title : String
  salary : Int
  equity : Int
  companyHandle : String
deriving DecidableEq, Repr

/-- A row of the companies table as selected by Company.filter. -/
structure CompanyRow where
  handle : String
  name : String
  description : String
  numEmployees : Int
  logoUrl : String
deriving DecidableEq, Repr

/-- The argument object of `Job.filter({ title, minSalary, hasEquity })`.
`maxSalary` is carried because callers may supply it, but the destructuring
in the source never reads it. -/
structure JobCriteria where
  title : Option String := none
  minSalary : Option Int := none
  hasEquity : Option Bool := none
  maxSalary : Option Int := none
deriving DecidableEq, Repr

/-- The argument object of
`Company.filter({ name, minEmployees, maxEmployees })`. -/
structure CompanyCriteria where
  name : Option String := none
  minEmployees : Option Int := none
  maxEmployees : Option Int := none
deriving DecidableEq, Repr

/-- A built query: its SQL text and the parallel bind-values array. -/
structure QueryParts where
  text : String
  values : List JSVal
deriving DecidableEq, Repr

/-- The query-building phase of Job.filter (models/job.js): starting from the
base `SELECT ... FROM jobs WHERE 1=1` (whitespace collapsed; the claims only
concern placeholders and values), appends one fragment per present criterion.
Note the `hasEquity === true` branch appends ` AND equity > 0` — a fragment
with no placeholder — yet still pushes `hasEquity` onto the values. -/
def jobFilterQuery (c : JobCriteria) : QueryParts :=
  let q := "SELECT id, title, salary, equity, company_handle AS \"companyHandle\" FROM jobs WHERE 1=1"
  let vals : List JSVal := []
  let (q, vals) := match c.title with
    | some t => (q ++ " AND title ILIKE $" ++ natToDecimal (vals.length + 1),
                 vals ++ [JSVal.str ("%" ++ t ++ "%")])
    | none => (q, vals)
  let (q, vals) := match c.minSalary with
    | some m => (q ++ " AND salary >= $" ++ natToDecimal (vals.length + 1),
                 vals ++ [JSVal.int m])
    | none => (q, vals)
  let (q, vals) :=
    if c.hasEquity = some true then
      (q ++ " AND equity > 0", vals ++ [JSVal.bool true])
    else (q, vals)
  { text := q, values := vals }

/-- A resolved pg-client query result is always an object, and every JS
object is truthy; `if (!jobsRes)` in Job.filter therefore tests this
constant. -/
def queryResultTruthy : Bool := true

/-- The JS property read `jobsRes.rows.salary` in Job.filter: `rows` is an
array, which has no own property `salary`, so the read yields `undefined`. -/
def rowsSalaryProp (_ : List JobRow) : JSVal := JSVal.undef

/-- The post-query error handling of Job.filter (models/job.js lines
186–194), applied to the rows the store returned. -/
def jobFilterPostQuery (c : JobCriteria) (rows : List JobRow) :
    Except DomainError (List JobRow) :=
  if rows.length = 0 then .error (.badRequest "No jobs found")
  else if queryResultTruthy = false then .error (.notFound "No jobs found")
  else if jsGtOptVal c.minSalary (rowsSalaryProp rows) then
    .error (.badRequest "No jobs found meeting minimum salary")
  else .ok rows

/-- Job.filter end to end: builds the query, executes it against the store
(modelled as a function from built query to returned rows), and applies the
post-query error handling. Job.filter performs no check before the read. -/
def jobFilter (c : JobCriteria) (store : QueryParts → List JobRow) :
    Except DomainError (List JobRow) :=
  let q := jobFilterQuery c
  let rows := store q
  jobFilterPostQuery c rows

/-- The query-building phase of Company.filter (models/company.js): starting
from the base `SELECT ... FROM companies WHERE 1 = 1` (whitespace collapsed),
appends one placeholder fragment and pushes one value per present
criterion. -/
def companyFilterQuery (c : CompanyCriteria) : QueryParts :=
  let q := "SELECT handle, name, description, num_employees AS \"numEmployees\", logo_url AS \"logoUrl\" FROM companies WHERE 1 = 1"
  let vals : List JSVal := []
  let (q, vals) := match c.name with
    | some n => (q ++ " AND name ILIKE $" ++ natToDecimal (vals.length + 1),
                 vals ++ [JSVal.str ("%" ++ n ++ "%")])
    | none => (q, vals)
  let (q, vals) := match c.minEmployees with
    | some m => (q ++ " AND num_employees >= $" ++ natToDecimal (vals.length + 1),
                 vals ++ [JSVal.int (parseIntJS m)])
    | none => (q, vals)
  let (q, vals) := match c.maxEmployees with
    | some m => (q ++ " AND num_employees <= $" ++ natToDecimal (vals.length + 1),
                 vals ++ [JSVal.int (parseIntJS m)])
    | none => (q, vals)
  { text := q, values := vals }

/-- The range check of Company.filter (models/company.js lines 187–191),
performed after the clauses are built but before `db.query` runs:
`minEmployees !== undefined && maxEmployees !== undefined &&
minEmployees > maxEmployees`. -/
def companyRangeViolation (c : CompanyCriteria) : Bool :=
  c.minEmployees.isSome && c.maxEmployees.isSome &&
    jsGtOpt c.minEmployees c.maxEmployees

/-- The post-query error handling of Company.filter (models/company.js lines
195–209): on zero rows, sequential throwing checks — range violation, then
truthy `minEmployees`, then truthy `name`; if none applies, execution falls
through to `return companiesRes.rows`. -/
def companyFilterPostQuery (c : CompanyCriteria) (rows : List CompanyRow) :
    Except DomainError (List CompanyRow) :=
  if rows.length = 0 then
    if jsGtOpt c.minEmployees c.maxEmployees then
      .error (.badRequest "Min employees cannot be greater than max employees")
    else if jsTruthyInt c.minEmployees then
      .error (.notFound ("No companies found with less than "
        ++ jsInterpInt c.minEmployees ++ " employees"))
    else if jsTruthyStr c.name then
      .error (.notFound ("No companies found with name: " ++ jsInterpStr c.name))
    else .ok rows
  else .ok rows

/-- Company.filter end to end: builds the query, runs the range check (which
throws before any store access), then executes the query against the store
and applies the post-query error handling. -/
def companyFilter (c : CompanyCriteria) (store : QueryParts → List CompanyRow) :
    Except DomainError (List CompanyRow) :=
  let q := companyFilterQuery c
  if companyRangeViolation c then
    .error (.badRequest "Min employees cannot be greater than max employees")
  else
    let rows := store q
    companyFilterPostQuery c rows

/-- A concrete jobs row, used to exercise the filters on a store that has
matching data. -/
def jobRowEx : JobRow :=
  { id := 1, title := "test", salary := 500, equity := 0, companyHandle := "c1" }

/-! ### Properties of the decimal rendering -/

theorem natToDecimalAux_acc (fuel : Nat) : ∀ (n : Nat) (acc : List Char),
    natToDecimalAux fuel n acc = natToDecimalAux fuel n [] ++ acc := by
  induction fuel with
  | zero => intro n acc; rfl
  | succ f ih =>
    intro n acc
    simp only [natToDecimalAux]
    split
    · simp
    · rw [ih (n / 10) (Char.ofNat (48 + n % 10) :: acc),
        ih (n / 10) (Char.ofNat (48 + n % 10) :: [])]
      simp

theorem natToDecimalAux_fuel : ∀ (fuel₁ fuel₂ n : Nat) (acc : List Char),
    n < fuel₁ → n < fuel₂ →
    natToDecimalAux fuel₁ n acc = natToDecimalAux fuel₂ n acc := by
  intro fuel₁
  induction fuel₁ with
  | zero => intro _ n _ h; omega
  | succ f ih =>
    intro fuel₂ n acc h₁ h₂
    cases fuel₂ with
    | zero => omega
    | succ g =>
      simp only [natToDecimalAux]
      split
      · rfl
      · rename_i hlt
        exact ih g (n / 10) (Char.ofNat (48 + n % 10) :: acc) (by omega) (by omega)

theorem decimalDigits_eq (n : Nat) : (natToDecimal n).data =
    if n < 10 then [Char.ofNat (48 + n % 10)]
    else (natToDecimal (n / 10)).data ++ [Char.ofNat (48 + n % 10)] := by
  show natToDecimalAux (n + 1) n [] = _
  by_cases h : n < 10
  · simp [natToDecimalAux, h]
  · have hstep : natToDecimalAux (n + 1) n []
        = natToDecimalAux n (n / 10) [Char.ofNat (48 + n % 10)] := by
      simp [natToDecimalAux, h]
    rw [hstep, natToDecimalAux_acc, if_neg h]
    have : natToDecimalAux n (n / 10) [] = natToDecimalAux (n / 10 + 1) (n / 10) [] := by
      apply natToDecimalAux_fuel <;> omega
    rw [this]
    rfl

theorem decimalDigitChar_facts (m : Nat) (h : m < 10) :
    (Char.ofNat (48 + m)).isDigit = true ∧
    (Char.ofNat (48 + m)).toNat - 48 = m ∧
    Char.ofNat (48 + m) ≠ '$' := by
  interval_cases m <;> exact ⟨by decide, by decide, by decide⟩

theorem mem_decimalDigits (n : Nat) :
    ∀ c ∈ (natToDecimal n).data, c.isDigit = true ∧ c ≠ '$' := by
  induction n using Nat.strong_induction_on with
  | _ n ih =>
    intro c hc
    rw [decimalDigits_eq] at hc
    by_cases h : n < 10
    · rw [if_pos h] at hc
      simp only [List.mem_singleton] at hc
      subst hc
      obtain ⟨h1, _, h3⟩ := decimalDigitChar_facts (n % 10) (by omega)
      exact ⟨h1, h3⟩
    · rw [if_neg h] at hc
      rcases List.mem_append.mp hc with hc | hc
      · exact ih (n / 10) (by omega) c hc
      · simp only [List.mem_singleton] at hc
        subst hc
        obtain ⟨h1, _, h3⟩ := decimalDigitChar_facts (n % 10) (by omega)
        exact ⟨h1, h3⟩

/-! ### Properties of the placeholder scanner -/

theorem scan_skip (a rest : List Char) (h : ∀ c ∈ a, c ≠ '$') :
    scanPlaceholdersAux none (a ++ rest) = scanPlaceholdersAux none rest := by
  induction a with
  | nil => rfl
  | cons c cs ih =>
    simp only [List.cons_append, scanPlaceholdersAux]
    rw [if_neg (h c (List.mem_cons_self c cs))]
    exact ih (fun x hx => h x (List.mem_cons_of_mem c hx))

theorem scan_decimalDigits (n : Nat) : ∀ (a : Nat) (rest : List Char),
    scanPlaceholdersAux (some a) ((natToDecimal n).data ++ rest)
      = scanPlaceholdersAux (some (a * 10 ^ (natToDecimal n).data.length + n)) rest := by
  induction n using Nat.strong_induction_on with
  | _ n ih =>
    intro a rest
    rw [decimalDigits_eq]
    obtain ⟨hd, hv, _⟩ := decimalDigitChar_facts (n % 10) (by omega)
    by_cases h : n < 10
    · rw [if_pos h]
      simp only [List.singleton_append, scanPlaceholdersAux, hd, if_true]
      rw [hv]
      have : a * 10 ^ List.length [Char.ofNat (48 + n % 10)] + n = a * 10 + n % 10 := by
        simp [pow_one]
        omega
      rw [this]
      rfl
    · rw [if_neg h, List.append_assoc]
      rw [ih (n / 10) (by omega) a ([Char.ofNat (48 + n % 10)] ++ rest)]
      simp only [List.singleton_append, scanPlaceholdersAux, hd, if_true]
      rw [hv]
      have harith : (a * 10 ^ (natToDecimal (n / 10)).data.length + n / 10) * 10 + n % 10
          = a * 10 ^ (List.length ((natToDecimal (n / 10)).data ++ [Char.ofNat (48 + n % 10)])) + n := by
        rw [List.length_append, List.length_singleton, pow_succ]
        have h2 : n / 10 * 10 + n % 10 = n := by omega
        calc (a * 10 ^ (natToDecimal (n / 10)).data.length + n / 10) * 10 + n % 10
            = a * (10 ^ (natToDecimal (n / 10)).data.length * 10) + (n / 10 * 10 + n % 10) := by ring
          _ = a * (10 ^ (natToDecimal (n / 10)).data.length * 10) + n := by rw [h2]
      rw [harith]
      rfl

theorem scan_emit (n : Nat) (rest : List Char)
    (h : ∀ c ∈ rest.head?, c.isDigit = false) :
    scanPlaceholdersAux (some n) rest = n :: scanPlaceholdersAux none rest := by
  cases rest with
  | nil => rfl
  | cons c cs =>
    have hc : c.isDigit = false := h c rfl
    simp only [scanPlaceholdersAux, hc]
    simp

theorem scan_updateFrag (t : List (String × String)) (k : String) (i : Nat) (rest : List Char)
    (hcol : ∀ c ∈ (resolveCol t k).data, c ≠ '$') :
    scanPlaceholdersAux none ((updateFrag t k i).data ++ rest)
      = scanPlaceholdersAux (some (i + 1)) rest := by
  have hdata : (updateFrag t k i).data
      = ('"' :: ((resolveCol t k).data ++ ['"', '='])) ++ '$' :: (natToDecimal (i + 1)).data := by
    show ((("\"" : String) ++ resolveCol t k ++ "\"=$" ++ natToDecimal (i + 1))).data = _
    simp [String.data_append]
  rw [hdata, List.append_assoc, scan_skip]
  · rw [List.cons_append]
    have hstep : scanPlaceholdersAux none ('$' :: ((natToDecimal (i + 1)).data ++ rest))
        = scanPlaceholdersAux (some 0) ((natToDecimal (i + 1)).data ++ rest) := by
      simp [scanPlaceholdersAux]
    rw [hstep, scan_decimalDigits]
    simp
  · intro c hc
    rcases List.mem_cons.mp hc with h | h
    · subst h; decide
    · rcases List.mem_append.mp h with h | h
      · exact hcol c h
      · rcases List.mem_cons.mp h with h | h
        · subst h; decide
        · simp only [List.mem_singleton] at h; subst h; decide

theorem scan_joinSep (t : List (String × String)) :
    ∀ (keys : List String) (start : Nat),
      (∀ k ∈ keys, ∀ c ∈ (resolveCol t k).data, c ≠ '$') →
      scanPlaceholdersAux none
        ((joinSep ", " (mapWithIdx (fun colName idx => updateFrag t colName idx) keys start)).data)
        = List.range' (start + 1) keys.length := by
  intro keys
  induction keys with
  | nil => intro start _; rfl
  | cons k ks ih =>
    intro start h
    cases ks with
    | nil =>
      show scanPlaceholdersAux none ((updateFrag t k start).data) = List.range' (start + 1) 1
      rw [← List.append_nil (updateFrag t k start).data,
        scan_updateFrag t k start [] (h k (by simp))]
      rfl
    | cons k' ks' =>
      have hj : joinSep ", " (mapWithIdx (fun colName idx => updateFrag t colName idx) (k :: k' :: ks') start)
          = (updateFrag t k start ++ ", ")
            ++ joinSep ", " (mapWithIdx (fun colName idx => updateFrag t colName idx) (k' :: ks') (start + 1)) := rfl
      rw [hj, String.data_append, String.data_append, List.append_assoc,
        scan_updateFrag t k start _ (h k (by simp))]
      have hcomma : (", " : String).data
          ++ (joinSep ", " (mapWithIdx (fun colName idx => updateFrag t colName idx) (k' :: ks') (start + 1))).data
          = ',' :: ' '
            :: (joinSep ", " (mapWithIdx (fun colName idx => updateFrag t colName idx) (k' :: ks') (start + 1))).data := rfl
      rw [hcomma, scan_emit]
      · have hskip : (',' : Char) :: ' '
            :: (joinSep ", " (mapWithIdx (fun colName idx => updateFrag t colName idx) (k' :: ks') (start + 1))).data
            = [',', ' ']
              ++ (joinSep ", " (mapWithIdx (fun colName idx => updateFrag t colName idx) (k' :: ks') (start + 1))).data := rfl
        rw [hskip, scan_skip [',', ' '] _ (by intro c hc; fin_cases hc <;> decide)]
        rw [ih (start + 1) (fun x hx => h x (List.mem_cons_of_mem k hx))]
        rw [show (k :: k' :: ks').length = (k' :: ks').length + 1 from rfl, List.range'_succ]
      · intro c hc
        simp only [List.head?_cons, Option.mem_def, Option.some.injEq] at hc
        subst hc
        decide

/-- If the pre-query range check of Company.filter did not fire, then the
`minEmployees > maxEmployees` comparison repeated in the zero-rows handler is
also false: that handler branch is unreachable. -/
theorem jsGtOpt_false_of_no_violation (c : CompanyCriteria)
    (h : companyRangeViolation c = false) :
    jsGtOpt c.minEmployees c.maxEmployees = false := by
  cases hm : c.minEmployees <;> cases hM : c.maxEmployees <;>
    simp_all [companyRangeViolation, jsGtOpt]

/-! ### The claims -/

/-- C1: the spec's positional-correspondence invariant (Nth placeholder binds
to Nth bound value, placeholder count = value count) is broken by the code:
the `hasEquity === true` branch of Job.filter appends the fragment
` AND equity > 0`, which contains no placeholder, yet still pushes the value
`true` onto the bind values. For the input `{hasEquity: true}` the built
query has zero numbered placeholders but one bound value, so the driver
rejects every such query. -/
theorem c1_jobFilter_hasEquity_placeholder_value_mismatch :
    placeholderIndices (jobFilterQuery { hasEquity := some true }).text = [] ∧
    countDollar (jobFilterQuery { hasEquity := some true }).text = 0 ∧
    (jobFilterQuery { hasEquity := some true }).values = [JSVal.bool true] ∧
    (jobFilterQuery { hasEquity := some true }).values.length = 1 :=
  ⟨by rfl, by rfl, by rfl, by rfl⟩

/-- C2 counterexample: Job.filter never destructures `maxSalary` and performs
no range check at all; with `{minSalary: 300, maxSalary: 100}` it does not
fail before the store read — the query executes and the call can even
succeed. The built query is identical to the one for `{minSalary: 300}`
alone. -/
theorem c2_jobs_no_range_check_counterexample :
    jobFilter { minSalary := some 300, maxSalary := some 100 } (fun _ => [jobRowEx])
      = .ok [jobRowEx] ∧
    jobFilterQuery { minSalary := some 300, maxSalary := some 100 }
      = jobFilterQuery { minSalary := some 300 } :=
  ⟨by rfl, by rfl⟩

/-- C2 (amended): only Company.filter has the pre-query range check. When both
employee bounds are supplied with the lower strictly greater than the upper,
Company.filter fails with `BadRequestError` before any store access: the
result is this error for every possible store. Job.filter accepts no upper
salary bound and performs no such check. -/
theorem c2_company_range_error_before_store_read (c : CompanyCriteria) (m M : Int)
    (hmin : c.minEmployees = some m) (hmax : c.maxEmployees = some M) (h : M < m) :
    ∀ store : QueryParts → List CompanyRow,
      companyFilter c store
        = .error (.badRequest "Min employees cannot be greater than max employees") := by
  intro store
  have hviol : companyRangeViolation c = true := by
    simp [companyRangeViolation, jsGtOpt, hmin, hmax, h]
  simp [companyFilter, hviol]

/-- Witness for C2's amended theorem at `{minEmployees: 300, maxEmployees: 100}`. -/
theorem c2_company_range_error_before_store_read_witness :
    companyFilter { minEmployees := some 300, maxEmployees := some 100 } (fun _ => [])
      = .error (.badRequest "Min employees cannot be greater than max employees") :=
  c2_company_range_error_before_store_read
    { minEmployees := some 300, maxEmployees := some 100 } 300 100 rfl rfl
    (by decide) (fun _ => [])

/-- C3 counterexample: Company.filter with only `maxEmployees` present and an
empty query result silently returns the empty list — none of the zero-rows
checks (`minEmployees > maxEmployees`, truthy `minEmployees`, truthy `name`)
fires, and execution falls through to `return companiesRes.rows`. -/
theorem c3_company_maxEmployees_silent_empty :
    companyFilter { maxEmployees := some 5 } (fun _ => []) = .ok [] := by rfl

/-- C3 (amended): on a zero-row result Job.filter always raises
`BadRequestError("No jobs found")`; Company.filter raises a domain error
whenever the criteria include a range violation, a truthy `minEmployees`, or
a truthy `name` — but not when only an upper bound (or only falsy criteria)
is present. -/
theorem c3_zero_rows_error_policy (cj : JobCriteria) (cc : CompanyCriteria)
    (storej : QueryParts → List JobRow) (storec : QueryParts → List CompanyRow)
    (hj : storej (jobFilterQuery cj) = [])
    (hc : storec (companyFilterQuery cc) = [])
    (hcrit : companyRangeViolation cc = true ∨ jsTruthyInt cc.minEmployees = true
      ∨ jsTruthyStr cc.name = true) :
    jobFilter cj storej = .error (.badRequest "No jobs found") ∧
    ∃ e, companyFilter cc storec = .error e := by
  constructor
  · simp [jobFilter, jobFilterPostQuery, hj]
  · cases hrv : companyRangeViolation cc with
    | true =>
      exact ⟨.badRequest "Min employees cannot be greater than max employees",
        by simp [companyFilter, hrv]⟩
    | false =>
      have hgt := jsGtOpt_false_of_no_violation cc hrv
      cases hti : jsTruthyInt cc.minEmployees with
      | true =>
        exact ⟨.notFound ("No companies found with less than "
            ++ jsInterpInt cc.minEmployees ++ " employees"),
          by simp [companyFilter, hrv, companyFilterPostQuery, hc, hgt, hti]⟩
      | false =>
        cases hts : jsTruthyStr cc.name with
        | true =>
          exact ⟨.notFound ("No companies found with name: " ++ jsInterpStr cc.name),
            by simp [companyFilter, hrv, companyFilterPostQuery, hc, hgt, hti, hts]⟩
        | false =>
          rw [hrv, hti, hts] at hcrit
          simp at hcrit

/-- Witness for C3's amended theorem: jobs with no criteria, companies with
`{minEmployees: 1}`, both against an empty store. -/
theorem c3_zero_rows_error_policy_witness :
    jobFilter {} (fun _ => []) = .error (.badRequest "No jobs found") ∧
    ∃ e, companyFilter { minEmployees := some 1 } (fun _ => []) = .error e :=
  c3_zero_rows_error_policy {} { minEmployees := some 1 } (fun _ => []) (fun _ => [])
    rfl rfl (Or.inr (Or.inl (by decide)))

/-- C4: for every non-empty payload (whose resolved column names do not
themselves contain the placeholder marker `$`), sqlForPartialUpdate succeeds;
the values come back in key-enumeration order; the numbered placeholders
appearing in the SET clause text, read left to right, are exactly
`1, 2, ..., n` for `n` payload keys (so their count equals the key count and
they are 1-based and sequential); and the clause is the comma-join of the
per-key fragments. -/
theorem c4_partial_update_placeholders_sequential (p : List (String × JSVal))
    (t : List (String × String)) (hne : p ≠ [])
    (hnd : ∀ k ∈ p.map Prod.fst, ∀ c ∈ (resolveCol t k).data, c ≠ '$') :
    ∃ out, sqlForPartialUpdate p t = .ok out ∧
      out.values = p.map Prod.snd ∧
      placeholderIndices out.setCols = List.range' 1 p.length ∧
      out.setCols = joinSep ", "
        (mapWithIdx (fun colName idx => updateFrag t colName idx) (p.map Prod.fst) 0) := by
  have h0 : ¬ (p.map Prod.fst).length = 0 := by
    simp only [List.length_map]
    exact fun h => hne (List.length_eq_zero.mp h)
  have hout : sqlForPartialUpdate p t = .ok
      { setCols := joinSep ", "
          (mapWithIdx (fun colName idx => updateFrag t colName idx) (p.map Prod.fst) 0)
      , values := p.map Prod.snd } := by
    simp only [sqlForPartialUpdate]
    rw [if_neg h0]
  refine ⟨_, hout, rfl, ?_, rfl⟩
  show scanPlaceholdersAux none
      (joinSep ", " (mapWithIdx (fun colName idx => updateFrag t colName idx)
        (p.map Prod.fst) 0)).data = List.range' 1 p.length
  rw [scan_joinSep t (p.map Prod.fst) 0 hnd, List.length_map]

/-- Witness for C4 at the spec's own example payload. -/
theorem c4_partial_update_placeholders_sequential_witness :
    ∃ out, sqlForPartialUpdate [("firstName", JSVal.str "Aliya"), ("age", JSVal.int 32)]
        [("firstName", "first_name")] = .ok out ∧
      out.values = [JSVal.str "Aliya", JSVal.int 32] ∧
      placeholderIndices out.setCols = [1, 2] ∧
      out.setCols = "\"first_name\"=$1, \"age\"=$2" :=
  c4_partial_update_placeholders_sequential
    [("firstName", JSVal.str "Aliya"), ("age", JSVal.int 32)]
    [("firstName", "first_name")] (by decide) (by decide)

/-- C5 counterexample: a key that is present in the translation table but
mapped to the falsy string `""` does not emit the table's mapped value — the
`||` fallback emits the key itself, so the claim's "present implies mapped
value is emitted" fails. -/
theorem c5_falsy_translation_counterexample :
    jsGet [("field", "")] "field" = some "" ∧
    sqlForPartialUpdate [("field", JSVal.str "x")] [("field", "")]
      = .ok { setCols := "\"field\"=$1", values := [JSVal.str "x"] } ∧
    ("field" : String) ≠ "" :=
  ⟨by rfl, by rfl, by decide⟩

/-- C5 (amended): the emitted column name is the table's mapped value when
the key is present with a truthy (non-empty) mapped value; when the key is
absent — or present but mapped to the falsy `""` — the emitted column name is
the key itself. The last conjunct ties `resolveCol` to the SET clause the
builder emits. -/
theorem c5_column_resolution (t : List (String × String)) (k : String) (v : JSVal) :
    (∀ s, jsGet t k = some s → s ≠ "" → resolveCol t k = s) ∧
    (jsGet t k = none → resolveCol t k = k) ∧
    (jsGet t k = some "" → resolveCol t k = k) ∧
    sqlForPartialUpdate [(k, v)] t
      = .ok { setCols := "\"" ++ resolveCol t k ++ "\"=$" ++ natToDecimal 1
            , values := [v] } := by
  refine ⟨?_, ?_, ?_, rfl⟩
  · intro s hs hne
    simp [resolveCol, hs, hne]
  · intro hs
    simp [resolveCol, hs]
  · intro hs
    simp [resolveCol, hs]

/-- Witness for C5's amended theorem: a mapped key emits the mapped column. -/
theorem c5_column_resolution_witness :
    resolveCol [("firstName", "first_name")] "firstName" = "first_name" :=
  (c5_column_resolution [("firstName", "first_name")] "firstName" JSVal.undef).1
    "first_name" rfl (by decide)

/-- C6: sqlForPartialUpdate fails with `BadRequestError("No data")` exactly
when the payload has zero entries, and any payload with at least one entry
yields a successful result. -/
theorem c6_no_data_iff_empty_payload (p : List (String × JSVal))
    (t : List (String × String)) :
    (sqlForPartialUpdate p t = .error (.badRequest "No data") ↔ p = []) ∧
    (p ≠ [] → ∃ out, sqlForPartialUpdate p t = .ok out) := by
  constructor
  · constructor
    · intro h
      cases p with
      | nil => rfl
      | cons a as => simp [sqlForPartialUpdate] at h
    · intro h
      subst h
      rfl
  · intro h
    cases p with
    | nil => exact absurd rfl h
    | cons a as => exact ⟨_, rfl⟩

/-- Witness for C6: `build({}, {})` fails with "No data"; a one-entry payload
succeeds. -/
theorem c6_no_data_iff_empty_payload_witness :
    sqlForPartialUpdate [] [] = .error (.badRequest "No data") ∧
    ∃ out, sqlForPartialUpdate [("f", JSVal.int 1)] [] = .ok out :=
  ⟨(c6_no_data_iff_empty_payload [] []).1.mpr rfl,
   (c6_no_data_iff_empty_payload [("f", JSVal.int 1)] []).2 (by decide)⟩

/-- C7: when the executed company query returns zero rows, the error raised
follows the source's preference order — the range violation first (which in
fact already throws before the query), then the truthy lower-bound criterion
(beating a simultaneously truthy name), then the name criterion. -/
theorem c7_empty_result_criterion_preference (c : CompanyCriteria)
    (store : QueryParts → List CompanyRow)
    (hzero : store (companyFilterQuery c) = []) :
    (companyRangeViolation c = true →
      companyFilter c store
        = .error (.badRequest "Min employees cannot be greater than max employees")) ∧
    (companyRangeViolation c = false → jsTruthyInt c.minEmployees = true →
      companyFilter c store
        = .error (.notFound ("No companies found with less than "
            ++ jsInterpInt c.minEmployees ++ " employees"))) ∧
    (companyRangeViolation c = false → jsTruthyInt c.minEmployees = false →
      jsTruthyStr c.name = true →
      companyFilter c store
        = .error (.notFound ("No companies found with name: " ++ jsInterpStr c.name))) := by
  refine ⟨?_, ?_, ?_⟩
  · intro h
    simp [companyFilter, h]
  · intro h hti
    have hgt := jsGtOpt_false_of_no_violation c h
    simp [companyFilter, h, companyFilterPostQuery, hzero, hgt, hti]
  · intro h hti hts
    have hgt := jsGtOpt_false_of_no_violation c h
    simp [companyFilter, h, companyFilterPostQuery, hzero, hgt, hti, hts]

/-- Witness for C7: with both a truthy `minEmployees` and a truthy `name`
present and zero rows, the lower-bound error wins. -/
theorem c7_empty_result_criterion_preference_witness :
    companyFilter { name := some "acme", minEmployees := some 5 } (fun _ => [])
      = .error (.notFound "No companies found with less than 5 employees") :=
  (c7_empty_result_criterion_preference
    { name := some "acme", minEmployees := some 5 } (fun _ => []) rfl).2.1 rfl rfl

/-- C8: sqlForPartialUpdate is embedded as a total pure function — it
performs no effects by construction — and it is deterministic: two
invocations with the same ordered payload and the same translation table
produce identical results, and in particular byte-identical clause text and
value sequences. -/
theorem c8_partial_update_deterministic (p₁ p₂ : List (String × JSVal))
    (t₁ t₂ : List (String × String)) (hp : p₁ = p₂) (ht : t₁ = t₂) :
    sqlForPartialUpdate p₁ t₁ = sqlForPartialUpdate p₂ t₂ ∧
    ∀ out₁ out₂, sqlForPartialUpdate p₁ t₁ = .ok out₁ →
      sqlForPartialUpdate p₂ t₂ = .ok out₂ →
      out₁.setCols = out₂.setCols ∧ out₁.values = out₂.values := by
  subst hp
  subst ht
  refine ⟨rfl, ?_⟩
  intro o₁ o₂ h₁ h₂
  rw [h₁] at h₂
  injection h₂ with h
  subst h
  exact ⟨rfl, rfl⟩

/-- Witness for C8 at a concrete repeated invocation. -/
theorem c8_partial_update_deterministic_witness :
    sqlForPartialUpdate [("age", JSVal.int 32)] []
      = sqlForPartialUpdate [("age", JSVal.int 32)] [] :=
  (c8_partial_update_deterministic [("age", JSVal.int 32)] [("age", JSVal.int 32)]
    [] [] rfl rfl).1

/-- C9: a payload key with value `undefined` still counts as an entry for
sqlForPartialUpdate — `{field: undefined}` does not raise "No data", emits
`"field"=$1` and binds `undefined` as the value — whereas the filter
builders, whose criteria are all absent/undefined, contribute no fragment
and no value. -/
theorem c9_undefined_value_still_counts :
    sqlForPartialUpdate [("field", JSVal.undef)] []
      = .ok { setCols := "\"field\"=$1", values := [JSVal.undef] } ∧
    (jobFilterQuery {}).values = [] ∧
    placeholderIndices (jobFilterQuery {}).text = [] ∧
    (companyFilterQuery {}).values = [] ∧
    placeholderIndices (companyFilterQuery {}).text = [] :=
  ⟨by rfl, by rfl, by rfl, by rfl, by rfl⟩

/-- C10: whatever the criteria, Job.filter on a zero-row result always
raises `BadRequestError("No jobs found")`, and on a non-empty result returns
the rows; the `NotFoundError` branch (`!jobsRes` is never truthy for a
resolved query result) and the minimum-salary branch
(`minSalary > jobsRes.rows.salary` compares against the `undefined` property
of an array, which is always false) are unreachable for every input. -/
theorem c10_jobs_zero_rows_always_bad_request (c : JobCriteria)
    (store : QueryParts → List JobRow) :
    jobFilter c store
      = (if store (jobFilterQuery c) = [] then .error (.badRequest "No jobs found")
         else .ok (store (jobFilterQuery c))) ∧
    (∀ msg, jobFilter c store ≠ .error (.notFound msg)) ∧
    jobFilter c store ≠ .error (.badRequest "No jobs found meeting minimum salary") := by
  have hms : ∀ rows, jsGtOptVal c.minSalary (rowsSalaryProp rows) = false := by
    intro rows
    cases c.minSalary <;> rfl
  cases hrows : store (jobFilterQuery c) with
  | nil =>
    refine ⟨?_, ?_, ?_⟩
    · simp [jobFilter, jobFilterPostQuery, hrows]
    · intro msg
      simp [jobFilter, jobFilterPostQuery, hrows]
    · simp [jobFilter, jobFilterPostQuery, hrows]
  | cons r rs =>
    refine ⟨?_, ?_, ?_⟩
    · simp [jobFilter, jobFilterPostQuery, hrows, queryResultTruthy, hms]
    · intro msg
      simp [jobFilter, jobFilterPostQuery, hrows, queryResultTruthy, hms]
    · simp [jobFilter, jobFilterPostQuery, hrows, queryResultTruthy, hms]

/-- Witness for C10 on an empty store and on a store with one row. -/
theorem c10_jobs_zero_rows_always_bad_request_witness :
    jobFilter {} (fun _ => []) = .error (.badRequest "No jobs found") ∧
    jobFilter {} (fun _ => []) ≠ .error (.notFound "No jobs found") ∧
    jobFilter { minSalary := some 1000000 } (fun _ => [jobRowEx])
      ≠ .error (.badRequest "No jobs found meeting minimum salary") := by
  obtain ⟨h1, h2, _⟩ := c10_jobs_zero_rows_always_bad_request {} (fun _ => [])
  obtain ⟨_, _, h3⟩ := c10_jobs_zero_rows_always_bad_request
    { minSalary := some 1000000 } (fun _ => [jobRowEx])
  exact ⟨by rw [h1]; rfl, h2 "No jobs found", h3⟩
